import Mathlib

/-!
# Verification of the react-native idle-timer core

The repository ships a type declaration (`IdleTimerProps.ts`), planning
documents and a smoke test; the idle-detection state machine itself
(`useIdleTimer`) is described only by the specification. The state machine
is therefore modelled here from the spec's words: a two-state enum with an
orthogonal paused flag, an absolute deadline with a generation-token
guarded deferred callback, a suspension snapshot for background/foreground
compensation, and edge-triggered notifications. Times and durations are
integers (milliseconds); callbacks fired by an operation are returned as a
list of events.
-/

namespace IdleTimer

/-- Modelled from the spec: the `TimerState` enumeration (`Active`, `Idle`);
the `paused` flag is orthogonal information kept beside it (spec section 3,
section 4.1). -/
inductive TimerState
| active
| idle
deriving Repr, DecidableEq

/-- Modelled from the spec: the notifications the core pushes out through
the configuration-time registered callbacks (spec sections 3 and 6). -/
inductive Callback
| onIdle
| onActive
| onAction
deriving Repr, DecidableEq

/-- Modelled from the spec: `SuspensionSnapshot`, present only while the
process is suspended (spec section 3). -/
structure SuspensionSnapshot where
  suspendedAt : Int
  remainingAtSuspension : Int
deriving Repr, DecidableEq

/-- Modelled from the spec: the immutable per-instance configuration; the
optional `onAction` callback is recorded as a presence flag since firing an
absent callback is a no-op (spec section 3). -/
structure Config where
  timeout : Int
  onActionConfigured : Bool
deriving Repr, DecidableEq

/-- Modelled from the spec: the `IdleTimerCore` state — the two-state enum,
the orthogonal `paused` flag, the frozen `remaining` duration retained while
paused, the absolute `deadline`, the suspension snapshot, the generation
token of the currently valid schedule, and the absolute time at which the
pending deferred callback is due (`none` when nothing is scheduled)
(spec sections 3, 4.1 and 9). -/
structure CoreState where
  state : TimerState
  paused : Bool
  remaining : Int
  deadline : Int
  snapshot : Option SuspensionSnapshot
  gen : Nat
  schedTime : Option Int
deriving Repr, DecidableEq

/-- Modelled from the spec: the construction-time error taxonomy
(spec section 7). -/
inductive IdleTimerError
| configurationError
deriving Repr, DecidableEq

/-- Modelled from the spec: cancel the pending deferred callback. The
generation token is bumped so that any late fire of the canceled callback
is recognisably stale (spec sections 4.1 and 5). -/
def cancelSched (s : CoreState) : CoreState :=
  { s with gen := s.gen + 1, schedTime := none }

/-- Modelled from the spec: schedule a deferred callback for absolute time
`t`, superseding any earlier schedule with a fresh generation token and
recording `t` as the new deadline (spec sections 4.1 and 9). -/
def schedule (s : CoreState) (t : Int) : CoreState :=
  { s with deadline := t, gen := s.gen + 1, schedTime := some t }

/-- Modelled from the spec: construction. `timeout <= 0` is a
`ConfigurationError` and no instance is created; otherwise the initial
state is `Active`, not paused, with a freshly scheduled deadline
`now + timeout` carrying generation token 0 (spec sections 4.1 and 7). -/
def mkCore (cfg : Config) (now : Int) : Except IdleTimerError CoreState :=
  if cfg.timeout ≤ 0 then Except.error IdleTimerError.configurationError
  else Except.ok
    { state := TimerState.active
      paused := false
      remaining := cfg.timeout
      deadline := now + cfg.timeout
      snapshot := none
      gen := 0
      schedTime := some (now + cfg.timeout) }

/-- Modelled from the spec: `deadlineExpired()`, invoked by the Clock's
deferred-callback mechanism. A callback whose generation token does not
match the current one is stale and ignored; a valid callback transitions
`Active` (not paused) to `Idle` firing `onIdle` once (spec section 4.1). -/
def deadlineExpired (s : CoreState) (token : Nat) : CoreState × List Callback :=
  if token = s.gen then
    if s.state = TimerState.active ∧ s.paused = false then
      ({ s with state := TimerState.idle, schedTime := none }, [Callback.onIdle])
    else (s, [])
  else (s, [])

/-- Modelled from the spec: `notifyActivity()`. No-op while paused;
otherwise reschedules the deadline to `now + timeout`, transitions
`Idle` to `Active` firing `onActive` once if an edge is crossed, and fires
`onAction` if configured on every non-paused call (spec section 4.1). -/
def notifyActivity (cfg : Config) (s : CoreState) (now : Int) :
    CoreState × List Callback :=
  if s.paused then (s, [])
  else
    let s1 := schedule s (now + cfg.timeout)
    let acts := if cfg.onActionConfigured then [Callback.onAction] else []
    if s.state = TimerState.idle then
      ({ s1 with state := TimerState.active }, Callback.onActive :: acts)
    else (s1, acts)

/-- Modelled from the spec: `reset()` has the same effect on the core as
`notifyActivity()`; `respectKeyboard` filtering lives in the ActivityBridge
layer, not here (spec section 4.1). -/
def reset (cfg : Config) (s : CoreState) (now : Int) : CoreState × List Callback :=
  notifyActivity cfg s now

/-- Modelled from the spec: `pause()` freezes the clock: computes
`remaining = deadline - now` clamped to be nonnegative, cancels the pending
deferred callback, sets `paused`; no-op if already paused; never changes
`Active`/`Idle`; fires nothing (spec section 4.1). -/
def pause (s : CoreState) (now : Int) : CoreState :=
  if s.paused then s
  else { cancelSched s with paused := true, remaining := max 0 (s.deadline - now) }

/-- Modelled from the spec: `resume()` (the non-suspension variant). No-op
when not paused; otherwise clears `paused` and either transitions to `Idle`
immediately when the frozen remaining budget is exhausted (firing `onIdle`
if previously `Active`) or reschedules for `now + remaining`
(spec section 4.1). -/
def resume (s : CoreState) (now : Int) : CoreState × List Callback :=
  if s.paused = false then (s, [])
  else
    let s0 := { s with paused := false }
    if s.remaining ≤ 0 then
      if s.state = TimerState.active then
        ({ s0 with state := TimerState.idle }, [Callback.onIdle])
      else (s0, [])
    else (schedule s0 (now + s.remaining), [])

/-- Modelled from the spec: `suspend(at)`, called by the LifecycleBridge.
Computes `remainingAtSuspension = max 0 (deadline - at)`, cancels the live
deferred callback and stores the snapshot; `Active`/`Idle`/`paused` are
untouched (spec section 4.1). -/
def suspend (s : CoreState) (atTime : Int) : CoreState :=
  { cancelSched s with
    snapshot := some
      { suspendedAt := atTime
        remainingAtSuspension := max 0 (s.deadline - atTime) } }

/-- Modelled from the spec: `resumeFromSuspension(at)` (the lifecycle
resume). No-op when no snapshot exists. Otherwise clears the snapshot; if
paused nothing further happens; if not paused, computes
`newRemaining = remainingAtSuspension - (at - suspendedAt)` and either
transitions to `Idle` immediately (firing `onIdle` if previously `Active`)
when `newRemaining <= 0`, or reschedules for `at + newRemaining`
(spec section 4.1). -/
def resumeFromSuspension (s : CoreState) (atTime : Int) :
    CoreState × List Callback :=
  match s.snapshot with
  | none => (s, [])
  | some snap =>
    let s0 := { s with snapshot := none }
    if s.paused then (s0, [])
    else
      let newRemaining := snap.remainingAtSuspension - (atTime - snap.suspendedAt)
      if newRemaining ≤ 0 then
        if s.state = TimerState.active then
          ({ s0 with state := TimerState.idle }, [Callback.onIdle])
        else (s0, [])
      else (schedule s0 (atTime + newRemaining), [])

/-- Modelled from the spec: `getRemainingTime()`, read-only. Returns 0 when
`Idle`; the frozen `remaining` when paused; the snapshot budget minus the
suspended elapsed time clamped to be nonnegative when suspended; otherwise
`deadline - now` clamped to be nonnegative (spec section 4.1). -/
def getRemainingTime (s : CoreState) (now : Int) : Int :=
  if s.state = TimerState.idle then 0
  else if s.paused then s.remaining
  else
    match s.snapshot with
    | some snap => max 0 (snap.remainingAtSuspension - (now - snap.suspendedAt))
    | none => max 0 (s.deadline - now)

/-- Modelled from the spec: `getIsIdle()`, read-only view of the current
`TimerState` (spec section 4.1). -/
def getIsIdle (s : CoreState) : Bool :=
  decide (s.state = TimerState.idle)

/-- An operation delivered to the core on its single logical timeline, each
carrying the wall-clock time of delivery (spec section 5). -/
inductive Op
| notifyActivity (now : Int)
| reset (now : Int)
| pause (now : Int)
| resume (now : Int)
| suspend (atTime : Int)
| resumeFromSuspension (atTime : Int)
| deadlineExpired (token : Nat) (now : Int)
deriving Repr, DecidableEq

/-- Dispatch one operation to the corresponding core transition. -/
def step (cfg : Config) (s : CoreState) : Op → CoreState × List Callback
| Op.notifyActivity now => notifyActivity cfg s now
| Op.reset now => reset cfg s now
| Op.pause now => (pause s now, [])
| Op.resume now => resume s now
| Op.suspend atTime => (suspend s atTime, [])
| Op.resumeFromSuspension atTime => resumeFromSuspension s atTime
| Op.deadlineExpired token _ => deadlineExpired s token

/-- Run a sequence of operations, collecting every fired callback in
delivery order. -/
def run (cfg : Config) (s : CoreState) : List Op → CoreState × List Callback
| [] => (s, [])
| op :: ops =>
  let r1 := step cfg s op
  let r2 := run cfg r1.1 ops
  (r2.1, r1.2 ++ r2.2)

/-- A state is reachable when some valid construction followed by some
operation sequence produces it. -/
def Reachable (cfg : Config) (s : CoreState) : Prop :=
  ∃ t0 s0 ops, mkCore cfg t0 = Except.ok s0 ∧ (run cfg s0 ops).1 = s

/-- `op` is a delivery of the Clock's deferred callback (the only event the
host generates spontaneously as wall-clock time passes). -/
def isDelivery : Op → Bool
| Op.deadlineExpired _ _ => true
| _ => false

/-- The operations of `ops` are all deferred-callback deliveries. -/
def DeliveriesOnly (ops : List Op) : Prop :=
  ∀ op ∈ ops, isDelivery op = true

instance (ops : List Op) : Decidable (DeliveriesOnly ops) :=
  inferInstanceAs (Decidable (∀ op ∈ ops, isDelivery op = true))

/-- `op` bears generation token `g`. -/
def bearsToken (g : Nat) : Op → Bool
| Op.deadlineExpired tok _ => tok == g
| _ => false

/-- `ops` contains a deferred-callback delivery bearing token `g`. -/
def hasLiveToken (g : Nat) (ops : List Op) : Bool :=
  ops.any (bearsToken g)

/-- A sample configuration used in the spec's worked examples:
10000 ms timeout, no `onAction` callback. -/
def cfg10 : Config := { timeout := 10000, onActionConfigured := false }

/-- The state constructed from `cfg10` at time 0. -/
def sInit : CoreState :=
  { state := TimerState.active
    paused := false
    remaining := 10000
    deadline := 10000
    snapshot := none
    gen := 0
    schedTime := some 10000 }

/-- The members of the `IdleTimerProps` interface, in declaration order,
as declared in `src/types/IdleTimerProps.ts` (commented-out members are
not part of the interface). -/
def idleTimerPropsMembers : List String :=
  ["panResponder", "reset", "startTime", "getRemainingTime",
   "pause", "resume", "currentTime", "getIsIdle"]

/-- The public-handle surface the spec lists (spec section 6): invocable
operations and read accessors. -/
def specPublicHandleMembers : List String :=
  ["reset", "pause", "resume", "getRemainingTime", "getIsIdle"]

lemma deadlineExpired_of_idle (s : CoreState) (h : s.state = TimerState.idle)
    (token : Nat) : deadlineExpired s token = (s, []) := by
  simp [deadlineExpired, h]

lemma deadlineExpired_of_paused (s : CoreState) (h : s.paused = true)
    (token : Nat) : deadlineExpired s token = (s, []) := by
  simp [deadlineExpired, h]

lemma deadlineExpired_live (s : CoreState) (token : Nat)
    (h1 : s.state = TimerState.active) (h2 : s.paused = false)
    (htok : token = s.gen) :
    deadlineExpired s token
      = ({ s with state := TimerState.idle, schedTime := none },
         [Callback.onIdle]) := by
  simp [deadlineExpired, h1, h2, htok]

lemma deadlineExpired_stale (s : CoreState) (token : Nat)
    (htok : token ≠ s.gen) : deadlineExpired s token = (s, []) := by
  simp [deadlineExpired, htok]

lemma deliveriesOnly_of_cons {op : Op} {ops : List Op}
    (h : DeliveriesOnly (op :: ops)) : DeliveriesOnly ops :=
  fun o ho => h o (List.mem_cons_of_mem _ ho)

lemma run_deliveries_of_idle (cfg : Config) (s : CoreState)
    (h : s.state = TimerState.idle) :
    ∀ ops : List Op, DeliveriesOnly ops → run cfg s ops = (s, []) := by
  intro ops
  induction ops with
  | nil => intro _; simp [run]
  | cons op rest ih =>
    intro hdel
    have hop : isDelivery op = true := hdel op (List.mem_cons_self _ _)
    have hrest := deliveriesOnly_of_cons hdel
    cases op <;> simp [isDelivery] at hop
    case deadlineExpired tok t =>
      simp [run, step, deadlineExpired_of_idle s h tok, ih hrest]

lemma run_deliveries_of_paused (cfg : Config) (s : CoreState)
    (h : s.paused = true) :
    ∀ ops : List Op, DeliveriesOnly ops → run cfg s ops = (s, []) := by
  intro ops
  induction ops with
  | nil => intro _; simp [run]
  | cons op rest ih =>
    intro hdel
    have hop : isDelivery op = true := hdel op (List.mem_cons_self _ _)
    have hrest := deliveriesOnly_of_cons hdel
    cases op <;> simp [isDelivery] at hop
    case deadlineExpired tok t =>
      simp [run, step, deadlineExpired_of_paused s h tok, ih hrest]

lemma run_deliveries_of_active (cfg : Config) (s : CoreState)
    (h1 : s.state = TimerState.active) (h2 : s.paused = false) :
    ∀ ops : List Op, DeliveriesOnly ops →
      run cfg s ops
        = if hasLiveToken s.gen ops then
            ({ s with state := TimerState.idle, schedTime := none },
             [Callback.onIdle])
          else (s, []) := by
  intro ops
  induction ops with
  | nil => intro _; simp [run, hasLiveToken]
  | cons op rest ih =>
    intro hdel
    have hop : isDelivery op = true := hdel op (List.mem_cons_self _ _)
    have hrest := deliveriesOnly_of_cons hdel
    cases op <;> simp [isDelivery] at hop
    case deadlineExpired tok t =>
      by_cases htok : tok = s.gen
      · subst htok
        have hfired := deadlineExpired_live s s.gen h1 h2 rfl
        have hidle : ({ s with state := TimerState.idle, schedTime := none }
            : CoreState).state = TimerState.idle := rfl
        have hrun := run_deliveries_of_idle cfg _ hidle rest hrest
        simp [run, step, hfired, hrun, hasLiveToken, bearsToken]
      · have hstale := deadlineExpired_stale s tok htok
        simp [run, step, hstale, ih hrest, hasLiveToken, bearsToken, htok]

lemma hasLiveToken_exists {g : Nat} {ops : List Op}
    (h : hasLiveToken g ops = true) : ∃ u : Int, Op.deadlineExpired g u ∈ ops := by
  simp [hasLiveToken, List.any_eq_true] at h
  obtain ⟨op, hmem, hb⟩ := h
  cases op <;> simp [bearsToken] at hb
  case deadlineExpired tok t =>
    exact ⟨t, by rw [hb] at hmem; exact hmem⟩

lemma mkCore_ok {cfg : Config} {t0 : Int} {s0 : CoreState}
    (h : mkCore cfg t0 = Except.ok s0) :
    0 < cfg.timeout ∧
      s0 = { state := TimerState.active
             paused := false
             remaining := cfg.timeout
             deadline := t0 + cfg.timeout
             snapshot := none
             gen := 0
             schedTime := some (t0 + cfg.timeout) } := by
  by_cases hle : cfg.timeout ≤ 0
  · simp [mkCore, hle] at h
  · refine ⟨by omega, ?_⟩
    simp [mkCore, hle] at h
    exact h.symm

lemma pause_of_paused (p : CoreState) (t : Int) (h : p.paused = true) :
    pause p t = p := by
  simp [pause, h]

lemma pause_paused (s : CoreState) (t : Int) : (pause s t).paused = true := by
  by_cases hp : s.paused <;> simp [pause, cancelSched, hp]

lemma remaining_nonneg_step (cfg : Config) (s : CoreState) (op : Op)
    (h : 0 ≤ s.remaining) : 0 ≤ (step cfg s op).1.remaining := by
  cases op with
  | notifyActivity now =>
    by_cases hp : s.paused <;> by_cases hst : s.state = TimerState.idle <;>
      simp [step, notifyActivity, schedule, hp, hst, h]
  | reset now =>
    by_cases hp : s.paused <;> by_cases hst : s.state = TimerState.idle <;>
      simp [step, reset, notifyActivity, schedule, hp, hst, h]
  | pause now =>
    by_cases hp : s.paused <;>
      simp [step, pause, cancelSched, hp, h, le_max_left]
  | resume now =>
    by_cases hp : s.paused <;> by_cases hr : s.remaining ≤ 0 <;>
      by_cases hst : s.state = TimerState.active <;>
        simp [step, resume, schedule, hp, hr, hst, h]
  | suspend atTime =>
    simp [step, suspend, cancelSched, h]
  | resumeFromSuspension atTime =>
    cases hsnap : s.snapshot with
    | none => simp [step, resumeFromSuspension, hsnap, h]
    | some snap =>
      by_cases hp : s.paused <;>
        by_cases hr : snap.remainingAtSuspension - (atTime - snap.suspendedAt) ≤ 0 <;>
          by_cases hst : s.state = TimerState.active <;>
            simp [step, resumeFromSuspension, schedule, hsnap, hp, hr, hst, h]
  | deadlineExpired token now =>
    by_cases htok : token = s.gen <;>
      by_cases hc : s.state = TimerState.active ∧ s.paused = false <;>
        simp [step, deadlineExpired, htok, hc, h]

lemma remaining_nonneg_run (cfg : Config) (s : CoreState)
    (h : 0 ≤ s.remaining) :
    ∀ ops : List Op, 0 ≤ (run cfg s ops).1.remaining := by
  intro ops
  induction ops generalizing s h with
  | nil => simpa [run] using h
  | cons op rest ih =>
    have hstep := remaining_nonneg_step cfg s op h
    simpa [run] using ih (step cfg s op).1 hstep

lemma reachable_remaining_nonneg {cfg : Config} {s : CoreState}
    (hreach : Reachable cfg s) : 0 ≤ s.remaining := by
  obtain ⟨t0, s0, ops, hmk, hrun⟩ := hreach
  obtain ⟨hpos, hs0⟩ := mkCore_ok hmk
  have h0 : 0 ≤ s0.remaining := by rw [hs0]; simp; omega
  have := remaining_nonneg_run cfg s0 h0 ops
  rwa [hrun] at this

/-- C4: protocol violations are silently ignored with the state left
unchanged: a `deadlineExpired` callback whose generation token was
superseded (token differs from the current one) changes no state and fires
no callback, and a lifecycle resume with no suspension snapshot is a no-op;
neither raises an error. -/
theorem claim4_protocol_violations_ignored (s : CoreState) (token : Nat)
    (atTime : Int) :
    (token ≠ s.gen → deadlineExpired s token = (s, []))
    ∧ (s.snapshot = none → resumeFromSuspension s atTime = (s, [])) := by
  constructor
  · intro htok
    exact deadlineExpired_stale s token htok
  · intro hsnap
    simp [resumeFromSuspension, hsnap]

/-- C4 witness: a stale token and a snapshot-free resume at concrete
inputs are both exact no-ops. -/
theorem claim4_witness :
    deadlineExpired sInit 5 = (sInit, [])
    ∧ resumeFromSuspension sInit 7000 = (sInit, []) :=
  ⟨(claim4_protocol_violations_ignored sInit 5 7000).1 (by decide),
   (claim4_protocol_violations_ignored sInit 5 7000).2 (by decide)⟩

/-- C7: construction with `timeout <= 0` fails with the configuration
error and no instance is created; with `timeout > 0` an instance is
created; and every operation on a constructed instance is a total function
returning a next state and a callback list (nothing throws). -/
theorem claim7_construction_and_totality (cfg : Config) (now : Int) :
    (cfg.timeout ≤ 0 →
      mkCore cfg now = Except.error IdleTimerError.configurationError)
    ∧ (0 < cfg.timeout →
      mkCore cfg now = Except.ok
        { state := TimerState.active
          paused := false
          remaining := cfg.timeout
          deadline := now + cfg.timeout
          snapshot := none
          gen := 0
          schedTime := some (now + cfg.timeout) })
    ∧ (∀ (s : CoreState) (op : Op), ∃ s' out, step cfg s op = (s', out)) := by
  refine ⟨?_, ?_, ?_⟩
  · intro hle
    simp [mkCore, hle]
  · intro hpos
    simp [mkCore, not_le.mpr hpos]
  · intro s op
    exact ⟨(step cfg s op).1, (step cfg s op).2, rfl⟩

/-- C7 witness: at `timeout = 10000`, construction at time 0 succeeds with
the expected initial state, and stepping is total at a concrete input. -/
theorem claim7_witness :
    mkCore cfg10 0 = Except.ok
      { state := TimerState.active
        paused := false
        remaining := cfg10.timeout
        deadline := 0 + cfg10.timeout
        snapshot := none
        gen := 0
        schedTime := some (0 + cfg10.timeout) } :=
  (claim7_construction_and_totality cfg10 0).2.1 (by decide)

/-- C8: `pause` is idempotent — pausing an already paused state changes
nothing, in particular the frozen remaining value — and the non-suspension
`resume` while not paused changes nothing and fires nothing. -/
theorem claim8_pause_idempotent_resume_noop (s : CoreState)
    (t1 t2 now : Int) :
    pause (pause s t1) t2 = pause s t1
    ∧ (pause (pause s t1) t2).remaining = (pause s t1).remaining
    ∧ (s.paused = false → resume s now = (s, [])) := by
  have key : pause (pause s t1) t2 = pause s t1 :=
    pause_of_paused (pause s t1) t2 (pause_paused s t1)
  refine ⟨key, by rw [key], ?_⟩
  intro hp
  simp [resume, hp]

/-- C8 witness: pausing `sInit` twice equals pausing it once, and resuming
the unpaused `sInit` is a no-op. -/
theorem claim8_witness :
    pause (pause sInit 3000) 4000 = pause sInit 3000
    ∧ (pause (pause sInit 3000) 4000).remaining = (pause sInit 3000).remaining
    ∧ resume sInit 4000 = (sInit, []) :=
  ⟨(claim8_pause_idempotent_resume_noop sInit 3000 4000 4000).1,
   (claim8_pause_idempotent_resume_noop sInit 3000 4000 4000).2.1,
   (claim8_pause_idempotent_resume_noop sInit 3000 4000 4000).2.2 (by decide)⟩

/-- C9: `notifyActivity` while paused is a complete no-op — the state
(including the paused flag, the `Active`/`Idle` state, the frozen
remaining value and the schedule) is returned unchanged and no callback,
`onAction` included, fires. -/
theorem claim9_notify_while_paused_noop (cfg : Config) (s : CoreState)
    (now : Int) (hp : s.paused = true) :
    notifyActivity cfg s now = (s, []) := by
  simp [notifyActivity, hp]

/-- C9 witness: activity at time 5000 on the paused sample state is an
exact no-op. -/
theorem claim9_witness :
    notifyActivity cfg10 (pause sInit 3000) 5000 = (pause sInit 3000, []) :=
  claim9_notify_while_paused_noop cfg10 (pause sInit 3000) 5000 (by decide)

/-- C10: the declared `IdleTimerProps` handle exposes exactly
`panResponder`, `reset`, `startTime`, `getRemainingTime`, `pause`,
`resume`, `currentTime`, `getIsIdle`; it covers the spec's public surface
and additionally exposes `panResponder`, `startTime`, `currentTime`; it
exposes no suspend or resume-from-suspension operation. -/
theorem claim10_props_surface :
    idleTimerPropsMembers
      = ["panResponder", "reset", "startTime", "getRemainingTime",
         "pause", "resume", "currentTime", "getIsIdle"]
    ∧ specPublicHandleMembers.all
        (fun m => idleTimerPropsMembers.contains m) = true
    ∧ idleTimerPropsMembers.filter
        (fun m => !(specPublicHandleMembers.contains m))
      = ["panResponder", "startTime", "currentTime"]
    ∧ idleTimerPropsMembers.contains "suspend" = false
    ∧ idleTimerPropsMembers.contains "resumeFromSuspension" = false := by
  decide

/-- C1: resuming a non-paused timer from suspension clears the snapshot;
the new budget is `remainingAtSuspension - (at - suspendedAt)`; when it is
nonpositive the timer is `Idle` immediately (firing `onIdle` exactly when
it was previously `Active`, with `getIsIdle` true at once), otherwise a
deferred callback is rescheduled for `at + newRemaining`. Concretely with
`timeout = 10000`, construction at 0, `suspend(4000)`, resume at 9000 the
callback is due at 10000 (1000 ms after resume, not a full timeout later)
and firing it yields `onIdle`; resume at 11000 goes `Idle` synchronously. -/
theorem claim1_suspension_compensation (s : CoreState)
    (snap : SuspensionSnapshot) (atTime : Int)
    (hsnap : s.snapshot = some snap) (hp : s.paused = false) :
    (resumeFromSuspension s atTime).1.snapshot = none
    ∧ (snap.remainingAtSuspension - (atTime - snap.suspendedAt) ≤ 0 →
        (resumeFromSuspension s atTime).1.state = TimerState.idle
        ∧ getIsIdle (resumeFromSuspension s atTime).1 = true
        ∧ (s.state = TimerState.active →
            (resumeFromSuspension s atTime).2 = [Callback.onIdle])
        ∧ (s.state = TimerState.idle →
            (resumeFromSuspension s atTime).2 = []))
    ∧ (0 < snap.remainingAtSuspension - (atTime - snap.suspendedAt) →
        (resumeFromSuspension s atTime).1.schedTime
          = some (atTime + (snap.remainingAtSuspension
              - (atTime - snap.suspendedAt)))
        ∧ (resumeFromSuspension s atTime).2 = []
        ∧ (s.state = TimerState.active →
            getRemainingTime (resumeFromSuspension s atTime).1 atTime
              = snap.remainingAtSuspension - (atTime - snap.suspendedAt)))
    ∧ (run cfg10 sInit [Op.suspend 4000, Op.resumeFromSuspension 9000]).1.schedTime
        = some 10000
    ∧ run cfg10 sInit [Op.suspend 4000, Op.resumeFromSuspension 9000,
          Op.deadlineExpired 2 10000]
        = ({ sInit with state := TimerState.idle, gen := 2, schedTime := none },
           [Callback.onIdle])
    ∧ run cfg10 sInit [Op.suspend 4000, Op.resumeFromSuspension 11000]
        = ({ sInit with state := TimerState.idle, gen := 1, schedTime := none },
           [Callback.onIdle]) := by
  refine ⟨?_, ?_, ?_, by decide, by decide, by decide⟩
  · cases hst : s.state <;>
      by_cases hr : snap.remainingAtSuspension - (atTime - snap.suspendedAt) ≤ 0 <;>
        simp [resumeFromSuspension, hsnap, hp, hst, hr, schedule]
  · intro hr
    cases hst : s.state <;>
      simp [resumeFromSuspension, hsnap, hp, hst, hr, getIsIdle]
  · intro hr
    have hr' : ¬ snap.remainingAtSuspension - (atTime - snap.suspendedAt) ≤ 0 :=
      not_le.mpr hr
    cases hst : s.state <;>
      simp [resumeFromSuspension, hsnap, hp, hst, hr', schedule, getRemainingTime]
    omega

/-- C1 witness: the suspend-at-4000 / resume-at-9000 scenario instantiates
the theorem: the snapshot is cleared and the callback is rescheduled for
time 10000 with an unchanged activity state. -/
theorem claim1_witness :
    (resumeFromSuspension (suspend sInit 4000) 9000).1.snapshot = none
    ∧ (resumeFromSuspension (suspend sInit 4000) 9000).1.schedTime
        = some (9000 + (6000 - (9000 - 4000)))
    ∧ (resumeFromSuspension (suspend sInit 4000) 9000).2 = [] := by
  have h := claim1_suspension_compensation (suspend sInit 4000)
    { suspendedAt := 4000, remainingAtSuspension := 6000 } 9000
    (by decide) (by decide)
  exact ⟨h.1, (h.2.2.1 (by decide)).1, (h.2.2.1 (by decide)).2.1⟩

/-- C3: notifications are edge-triggered: in every step, `onIdle` fires
exactly when the step crosses `Active` to `Idle` (so at most once per
edge and never without an edge), `onActive` fires exactly when the step
crosses `Idle` to `Active`, and a non-paused `notifyActivity` while
already `Active` fires only `onAction`, and that only if configured. -/
theorem claim3_edge_triggered (cfg : Config) (s : CoreState) (op : Op) :
    ((step cfg s op).2.count Callback.onIdle
      = if s.state = TimerState.active
           ∧ (step cfg s op).1.state = TimerState.idle then 1 else 0)
    ∧ ((step cfg s op).2.count Callback.onActive
      = if s.state = TimerState.idle
           ∧ (step cfg s op).1.state = TimerState.active then 1 else 0)
    ∧ (∀ now : Int, s.paused = false → s.state = TimerState.active →
        (notifyActivity cfg s now).2
          = if cfg.onActionConfigured then [Callback.onAction] else []) := by
  refine ⟨?_, ?_, ?_⟩
  · cases op with
    | notifyActivity now =>
      by_cases hp : s.paused <;> cases hst : s.state <;>
        by_cases hact : cfg.onActionConfigured <;>
          simp [step, notifyActivity, schedule, hp, hst, hact]
    | reset now =>
      by_cases hp : s.paused <;> cases hst : s.state <;>
        by_cases hact : cfg.onActionConfigured <;>
          simp [step, reset, notifyActivity, schedule, hp, hst, hact]
    | pause now =>
      by_cases hp : s.paused <;> cases hst : s.state <;>
        simp [step, pause, cancelSched, hp, hst]
    | resume now =>
      by_cases hp : s.paused <;> by_cases hr : s.remaining ≤ 0 <;>
        cases hst : s.state <;>
          simp [step, resume, schedule, hp, hr, hst]
    | suspend atTime =>
      cases hst : s.state <;> simp [step, suspend, cancelSched, hst]
    | resumeFromSuspension atTime =>
      cases hsnap : s.snapshot with
      | none => cases hst : s.state <;>
          simp [step, resumeFromSuspension, hsnap, hst]
      | some snap =>
        by_cases hp : s.paused <;>
          by_cases hr : snap.remainingAtSuspension
              - (atTime - snap.suspendedAt) ≤ 0 <;>
            cases hst : s.state <;>
              simp [step, resumeFromSuspension, schedule, hsnap, hp, hr, hst]
    | deadlineExpired token now =>
      by_cases htok : token = s.gen <;> by_cases hp : s.paused <;>
        cases hst : s.state <;>
          simp [step, deadlineExpired, htok, hp, hst]
  · cases op with
    | notifyActivity now =>
      by_cases hp : s.paused <;> cases hst : s.state <;>
        by_cases hact : cfg.onActionConfigured <;>
          simp [step, notifyActivity, schedule, hp, hst, hact]
    | reset now =>
      by_cases hp : s.paused <;> cases hst : s.state <;>
        by_cases hact : cfg.onActionConfigured <;>
          simp [step, reset, notifyActivity, schedule, hp, hst, hact]
    | pause now =>
      by_cases hp : s.paused <;> cases hst : s.state <;>
        simp [step, pause, cancelSched, hp, hst]
    | resume now =>
      by_cases hp : s.paused <;> by_cases hr : s.remaining ≤ 0 <;>
        cases hst : s.state <;>
          simp [step, resume, schedule, hp, hr, hst]
    | suspend atTime =>
      cases hst : s.state <;> simp [step, suspend, cancelSched, hst]
    | resumeFromSuspension atTime =>
      cases hsnap : s.snapshot with
      | none => cases hst : s.state <;>
          simp [step, resumeFromSuspension, hsnap, hst]
      | some snap =>
        by_cases hp : s.paused <;>
          by_cases hr : snap.remainingAtSuspension
              - (atTime - snap.suspendedAt) ≤ 0 <;>
            cases hst : s.state <;>
              simp [step, resumeFromSuspension, schedule, hsnap, hp, hr, hst]
    | deadlineExpired token now =>
      by_cases htok : token = s.gen <;> by_cases hp : s.paused <;>
        cases hst : s.state <;>
          simp [step, deadlineExpired, htok, hp, hst]
  · intro now hp hst
    simp [notifyActivity, hp, hst]

/-- C3 witness: a second `notifyActivity` while already `Active` fires no
`onIdle` and no `onActive`, and fires nothing at all when `onAction` is
not configured. -/
theorem claim3_witness :
    ((step cfg10 sInit (Op.notifyActivity 1000)).2.count Callback.onIdle
      = if sInit.state = TimerState.active
           ∧ (step cfg10 sInit (Op.notifyActivity 1000)).1.state
               = TimerState.idle then 1 else 0)
    ∧ (notifyActivity cfg10 sInit 1000).2
        = if cfg10.onActionConfigured then [Callback.onAction] else [] :=
  ⟨(claim3_edge_triggered cfg10 sInit (Op.notifyActivity 1000)).1,
   (claim3_edge_triggered cfg10 sInit (Op.notifyActivity 1000)).2.2 1000
     (by decide) (by decide)⟩

/-- C5: the pause/resume round trip preserves the remaining budget: after
`pause` at `t1`, no deferred-callback delivery changes the state or fires
`onIdle` no matter how much time elapses; the frozen value equals the
remaining time at the moment of pause; `resume` at any `t2` restores a
remaining time equal to what it was at the pause; and for a running timer
with positive budget `r` the new deadline falls `r` ms after the resume. -/
theorem claim5_pause_resume_budget (cfg : Config) (s : CoreState)
    (t1 t2 : Int) (ops : List Op)
    (hp : s.paused = false) (hsnap : s.snapshot = none) :
    (DeliveriesOnly ops → run cfg (pause s t1) ops = (pause s t1, []))
    ∧ (s.state = TimerState.active →
        (pause s t1).remaining = getRemainingTime s t1)
    ∧ getRemainingTime (resume (pause s t1) t2).1 t2 = getRemainingTime s t1
    ∧ (s.state = TimerState.active → 0 < getRemainingTime s t1 →
        (resume (pause s t1) t2).1.schedTime
          = some (t2 + getRemainingTime s t1)) := by
  refine ⟨?_, ?_, ?_, ?_⟩
  · intro hdel
    exact run_deliveries_of_paused cfg (pause s t1) (pause_paused s t1) ops hdel
  · intro hst
    simp [pause, cancelSched, getRemainingTime, hp, hst, hsnap]
  · have hpp := pause_paused s t1
    have hpsnap : (pause s t1).snapshot = none := by
      simp [pause, cancelSched, hp, hsnap]
    have hrem : (pause s t1).remaining = max 0 (s.deadline - t1) := by
      simp [pause, cancelSched, hp]
    cases hst : s.state with
    | idle =>
      have hps : (pause s t1).state = TimerState.idle := by
        simp [pause, cancelSched, hp, hst]
      have hstate : (resume (pause s t1) t2).1.state = TimerState.idle := by
        by_cases hf : (pause s t1).remaining ≤ 0 <;>
          simp [resume, schedule, hpp, hps, hf]
      simp [getRemainingTime, hstate, hst]
    | active =>
      have hps : (pause s t1).state = TimerState.active := by
        simp [pause, cancelSched, hp, hst]
      have hRHS : getRemainingTime s t1 = max 0 (s.deadline - t1) := by
        simp [getRemainingTime, hst, hp, hsnap]
      by_cases hf : (pause s t1).remaining ≤ 0
      · have hres : resume (pause s t1) t2
            = ({ pause s t1 with paused := false, state := TimerState.idle },
               [Callback.onIdle]) := by
          simp [resume, hpp, hf, hps]
        have hz : getRemainingTime (resume (pause s t1) t2).1 t2 = 0 := by
          rw [hres]; simp [getRemainingTime]
        rw [hz, hRHS]
        rw [hrem] at hf
        omega
      · have hres : resume (pause s t1) t2
            = (schedule { pause s t1 with paused := false }
                (t2 + (pause s t1).remaining), []) := by
          simp [resume, hpp, hf]
        rw [hres]
        simp [getRemainingTime, schedule, hps, hpsnap, hrem, hRHS]
        simp [hst, hp, hsnap]
  · intro hst hpos
    have hpp := pause_paused s t1
    have hrem : (pause s t1).remaining = max 0 (s.deadline - t1) := by
      simp [pause, cancelSched, hp]
    have hRHS : getRemainingTime s t1 = max 0 (s.deadline - t1) := by
      simp [getRemainingTime, hst, hp, hsnap]
    have hf : ¬ (pause s t1).remaining ≤ 0 := by
      rw [hrem]; rw [hRHS] at hpos; omega
    have hres : resume (pause s t1) t2
        = (schedule { pause s t1 with paused := false }
            (t2 + (pause s t1).remaining), []) := by
      simp [resume, hpp, hf]
    rw [hres]
    simp [schedule, hrem, hRHS]

/-- C5 witness: the spec's worked example — pause at 3000 freezes 7000 ms;
deliveries while paused change nothing; resume at 50000 restores exactly
7000 ms and sets the deadline to 57000. -/
theorem claim5_witness :
    run cfg10 (pause sInit 3000) [Op.deadlineExpired 0 50000]
        = (pause sInit 3000, [])
    ∧ (pause sInit 3000).remaining = getRemainingTime sInit 3000
    ∧ getRemainingTime (resume (pause sInit 3000) 50000).1 50000
        = getRemainingTime sInit 3000
    ∧ (resume (pause sInit 3000) 50000).1.schedTime
        = some (50000 + getRemainingTime sInit 3000) := by
  have h := claim5_pause_resume_budget cfg10 sInit 3000 50000
    [Op.deadlineExpired 0 50000] (by decide) (by decide)
  exact ⟨h.1 (by decide), h.2.1 (by decide), h.2.2.1,
    h.2.2.2 (by decide) (by decide)⟩

/-- C6: in every reachable state, `getRemainingTime` is nonnegative, and
it returns 0 when `Idle`, the frozen remaining value when paused, the
clamped snapshot budget when suspended, and the clamped `deadline - now`
otherwise. -/
theorem claim6_remaining_nonneg (cfg : Config) (s : CoreState)
    (hreach : Reachable cfg s) (now : Int) :
    0 ≤ getRemainingTime s now
    ∧ (s.state = TimerState.idle → getRemainingTime s now = 0)
    ∧ (s.state = TimerState.active → s.paused = true →
        getRemainingTime s now = s.remaining)
    ∧ (∀ snap : SuspensionSnapshot, s.state = TimerState.active →
        s.paused = false → s.snapshot = some snap →
        getRemainingTime s now
          = max 0 (snap.remainingAtSuspension - (now - snap.suspendedAt)))
    ∧ (s.state = TimerState.active → s.paused = false → s.snapshot = none →
        getRemainingTime s now = max 0 (s.deadline - now)) := by
  have hrem := reachable_remaining_nonneg hreach
  refine ⟨?_, ?_, ?_, ?_, ?_⟩
  · cases hst : s.state with
    | idle => simp [getRemainingTime, hst]
    | active =>
      by_cases hp : s.paused
      · simpa [getRemainingTime, hst, hp] using hrem
      · cases hsnap : s.snapshot <;>
          simp [getRemainingTime, hst, hp, hsnap, le_max_left]
  · intro hst; simp [getRemainingTime, hst]
  · intro hst hp; simp [getRemainingTime, hst, hp]
  · intro snap hst hp hsnap; simp [getRemainingTime, hst, hp, hsnap]
  · intro hst hp hsnap; simp [getRemainingTime, hst, hp, hsnap]

/-- C6 witness: the freshly constructed sample state is reachable, and
there `getRemainingTime` at time 5000 is nonnegative and equals the
clamped distance to the deadline. -/
theorem claim6_witness :
    0 ≤ getRemainingTime sInit 5000
    ∧ getRemainingTime sInit 5000 = max 0 (sInit.deadline - 5000) := by
  have hreach : Reachable cfg10 sInit :=
    ⟨0, sInit, [], by simp [mkCore, cfg10, sInit], rfl⟩
  have h := claim6_remaining_nonneg cfg10 sInit hreach 5000
  exact ⟨h.1, h.2.2.2.2 (by decide) (by decide) (by decide)⟩

/-- C2: with `timeout > 0` and no activity, reset, pause, or suspend after
construction (only deferred-callback deliveries, any of which carrying the
live token arrives no earlier than its due time `t0 + timeout`): the
construction schedules the callback for `t0 + timeout`; `getIsIdle` along
any delivery sequence is true exactly once the live-token delivery has been
processed (hence false at every earlier moment); when the host delivers the
live callback, `onIdle` fires exactly once over the whole run and the
firing delivery occurs at or after `t0 + timeout`; with no live delivery
nothing fires and the timer stays non-idle. -/
theorem claim2_idle_fires_once_at_timeout (cfg : Config) (t0 : Int)
    (s0 : CoreState) (ops : List Op)
    (hmk : mkCore cfg t0 = Except.ok s0)
    (hdel : DeliveriesOnly ops)
    (htime : ∀ u : Int, Op.deadlineExpired 0 u ∈ ops → t0 + cfg.timeout ≤ u) :
    s0.schedTime = some (t0 + cfg.timeout)
    ∧ (∀ n : Nat,
        getIsIdle (run cfg s0 (ops.take n)).1 = hasLiveToken 0 (ops.take n))
    ∧ (hasLiveToken 0 ops = true →
        (run cfg s0 ops).2 = [Callback.onIdle]
        ∧ ∃ u : Int, Op.deadlineExpired 0 u ∈ ops ∧ t0 + cfg.timeout ≤ u)
    ∧ (hasLiveToken 0 ops = false →
        (run cfg s0 ops).2 = [] ∧ getIsIdle (run cfg s0 ops).1 = false) := by
  obtain ⟨hpos, hs0⟩ := mkCore_ok hmk
  subst hs0
  refine ⟨rfl, ?_, ?_, ?_⟩
  · intro n
    have hdeln : DeliveriesOnly (ops.take n) :=
      fun o ho => hdel o (List.take_subset n ops ho)
    have hrun := run_deliveries_of_active cfg
      { state := TimerState.active, paused := false, remaining := cfg.timeout,
        deadline := t0 + cfg.timeout, snapshot := none, gen := 0,
        schedTime := some (t0 + cfg.timeout) } rfl rfl (ops.take n) hdeln
    rw [hrun]
    cases hcase : hasLiveToken 0 (ops.take n) <;>
      simp [hcase, getIsIdle]
  · intro hlive
    have hrun := run_deliveries_of_active cfg
      { state := TimerState.active, paused := false, remaining := cfg.timeout,
        deadline := t0 + cfg.timeout, snapshot := none, gen := 0,
        schedTime := some (t0 + cfg.timeout) } rfl rfl ops hdel
    constructor
    · rw [hrun]; simp [hlive]
    · obtain ⟨u, hu⟩ := hasLiveToken_exists hlive
      exact ⟨u, hu, htime u hu⟩
  · intro hno
    have hrun := run_deliveries_of_active cfg
      { state := TimerState.active, paused := false, remaining := cfg.timeout,
        deadline := t0 + cfg.timeout, snapshot := none, gen := 0,
        schedTime := some (t0 + cfg.timeout) } rfl rfl ops hdel
    rw [hrun]
    simp [hno, getIsIdle]

/-- C2 witness: constructed at 0 with a 10000 ms timeout and the single
on-time delivery of the live callback at 10000, `onIdle` fires exactly
once and the firing delivery is at or after the timeout. -/
theorem claim2_witness :
    (run cfg10 sInit [Op.deadlineExpired 0 10000]).2 = [Callback.onIdle]
    ∧ ∃ u : Int, Op.deadlineExpired 0 u ∈ [Op.deadlineExpired 0 10000]
        ∧ 0 + cfg10.timeout ≤ u := by
  have htime : ∀ u : Int,
      Op.deadlineExpired 0 u ∈ [Op.deadlineExpired 0 10000] →
        0 + cfg10.timeout ≤ u := by
    intro u hu
    rw [List.mem_singleton] at hu
    cases hu
    decide
  exact (claim2_idle_fires_once_at_timeout cfg10 0 sInit
    [Op.deadlineExpired 0 10000] (by simp [mkCore, cfg10, sInit])
    (by decide) htime).2.2.1 (by decide)

end IdleTimer
